import Mathlib

/-!
Shallow embedding of the data-loading core of biai_script.py: the class-color
mask decoder, the Dataset class and the Dataloder class, together with the
pieces of Python, numpy and cv2 semantics their code paths exercise.

Conventions of the embedding:
- A raster (the in-memory array returned by cv2.imread) is a nested list
  H x W x C of Nat channel values.  cv2.imread of an existing file yields the
  stored raster; of a missing path it yields none (cv2.imread returns None).
- A directory is an association list from file name to stored raster; the
  os.path.join of a directory path with a file name is modelled by looking the
  name up inside that directory, so the fps lists hold the bare ids.
- Python exceptions are an explicit error type.  The numpy AxisError class
  derives from both ValueError and IndexError, and IndexError derives from
  LookupError, which isLookupError records.
- The augmentation and preprocessing arguments of Dataset default to None and
  are externally supplied opaque callables; the embedding covers the default
  configuration (both None), in which __getitem__ skips both transform steps.
- np.random.permutation is modelled by passing the drawn list explicitly to
  on_epoch_end; theorems that need it assume the drawn list is a permutation.
-/

/-- Python exception classes raised on the modelled code paths. -/
inductive PyErr where
  | indexError
  | keyError
  | typeError
  | valueError
  | zeroDivisionError
  | axisError
  | cvError
  | attributeError
deriving DecidableEq, Repr

/-- Whether the exception is an instance of LookupError: IndexError and
KeyError derive from LookupError, and numpy AxisError derives from both
ValueError and IndexError, hence from LookupError as well. -/
def isLookupError : PyErr → Bool
  | .indexError => true
  | .keyError => true
  | .axisError => true
  | _ => false

abbrev Color := List Nat
abbrev Raster := List (List (List Nat))
abbrev Plane := List (List Bool)
abbrev Tensor3 := List (List (List Nat))
abbrev Dir := List (String × Raster)

/-- Dataset.CLASSES: the fixed palette mapping class name to a 3-channel
color, in the dictionary order of the source. -/
def CLASSES : List (String × Color) :=
  [("nonmaskingbackground", [0, 0, 255]),
   ("maskingbackground", [0, 255, 0]),
   ("animal", [255, 0, 0]),
   ("nonmaskingforegroundattention", [255, 255, 255]),
   ("unlabelled", [0, 0, 0])]

/-- self.CLASSES.get(key): dict.get returns None when the key is absent. -/
def classesGet (key : String) : Option Color :=
  (CLASSES.find? (fun p => p.1 == key)).map (fun p => p.2)

/-- Python list indexing xs[i]: negative indices count from the end; an
index outside [-len, len) raises IndexError. -/
def listGet {α : Type} (xs : List α) (i : Int) : Except PyErr α :=
  let j : Int := if i < 0 then i + xs.length else i
  if 0 ≤ j then
    match xs.get? j.toNat with
    | some v => .ok v
    | none => .error .indexError
  else
    .error .indexError

/-- Python range(a, b) as a list of integers. -/
def pyRange (a b : Int) : List Int :=
  (List.range (b - a).toNat).map (fun (k : Nat) => a + (k : Int))

/-- os.listdir over the modelled directory: the file names it holds. -/
def listdir (d : Dir) : List String := d.map (fun p => p.1)

/-- cv2.imread of a path inside the modelled directory: the stored raster if
the file exists, None otherwise. -/
def imreadIn (d : Dir) (name : String) : Option Raster :=
  (d.find? (fun p => p.1 == name)).map (fun p => p.2)

/-- Per-pixel channel reversal: 3-channel BGR to RGB reorder. -/
def bgr2rgb (m : Raster) : Raster :=
  m.map (fun row => row.map (fun px => px.reverse))

/-- cv2.cvtColor(image, cv2.COLOR_BGR2RGB): raises cv2.error on a None
input (empty source assertion); otherwise reverses channel order. -/
def cvtColorBGR2RGB : Option Raster → Except PyErr Raster
  | none => .error .cvError
  | some m => .ok (bgr2rgb m)

/-- (mask == c).all(axis=2), over the four shapes the script can produce.
With a loaded mask and a real color c (a 3-element numpy array), the
comparison broadcasts over the channel axis and .all(axis=2) yields a
per-pixel plane that is true iff all channels match; since every cv2 raster
pixel and every palette color has exactly 3 channels, this is list equality
of the pixel with the color.  With a loaded mask and c = None the elementwise
comparison with None is False everywhere.  With mask = None and a real c the
reflected comparison yields a 1-d array of shape (3,), and .all(axis=2) raises
numpy AxisError.  With both None, (None == None) is the Python bool True,
which has no .all attribute. -/
def eqAll : Option Raster → Option Color → Except PyErr Plane
  | some m, some c => .ok (m.map (fun row => row.map (fun px => px == c)))
  | some m, none => .ok (m.map (fun row => row.map (fun _ => false)))
  | none, some _ => .error .axisError
  | none, none => .error .attributeError

/-- The list comprehension [(mask == c).all(axis=2) for c in class_colors]:
elements are evaluated left to right and the first exception propagates. -/
def mapPlanes (m : Option Raster) : List (Option Color) → Except PyErr (List Plane)
  | [] => .ok []
  | c :: cs => do
    let p ← eqAll m c
    let ps ← mapPlanes m cs
    .ok (p :: ps)

/-- The 2-d shape (rows, columns) of a plane, reading the column count off
the first row as numpy does for a rectangular array. -/
def shape2 (p : Plane) : Nat × Nat := (p.length, (p.headD []).length)

/-- np.stack(planes, axis=-1): raises ValueError on an empty list or on a
shape mismatch, otherwise interleaves the planes along a new trailing axis. -/
def npStackLast (planes : List Plane) : Except PyErr (List (List (List Bool))) :=
  match planes with
  | [] => .error .valueError
  | p :: _ =>
    if planes.all (fun q => shape2 q == shape2 p) then
      .ok ((List.range p.length).map (fun r =>
        (List.range (p.headD []).length).map (fun c =>
          planes.map (fun q => (q.getD r []).getD c false))))
    else
      .error .valueError

/-- .astype(float) on the stacked boolean tensor: True becomes 1.0 and
False becomes 0.0 (represented by the exact naturals 1 and 0). -/
def astypeFloat (t : List (List (List Bool))) : Tensor3 :=
  t.map (fun pl => pl.map (fun row => row.map (fun b => if b then 1 else 0)))

/-- Lines 105-106 of the source: build one boolean plane per entry of
class_colors, stack them along a new trailing axis, convert to float. -/
def decode (mask : Option Raster) (class_colors : List (Option Color)) :
    Except PyErr Tensor3 := do
  let planes ← mapPlanes mask class_colors
  let t ← npStackLast planes
  .ok (astypeFloat t)

/-- The decoder applied to a loaded mask and a list of class names, the
names being converted to colors exactly as Dataset.__init__ line 92 does. -/
def decodeByNames (m : Raster) (classes : List String) : Except PyErr Tensor3 :=
  decode (some m) (classes.map classesGet)

/-- The state of a constructed Dataset (augmentation and preprocessing left
at their None defaults). -/
structure Dataset where
  imagesDir : Dir
  masksDir : Dir
  ids : List String
  images_fps : List String
  masks_fps : List String
  class_colors : List (Option Color)
deriving DecidableEq, Repr

/-- Dataset.__init__: lists the image directory, builds the two fps lists
from the ids, and converts class names to colors with dict.get.  Iterating
classes left at its None default raises TypeError (NoneType is not
iterable). -/
def datasetInit (imagesDir masksDir : Dir) (classes : Option (List String)) :
    Except PyErr Dataset :=
  match classes with
  | none => .error .typeError
  | some cs =>
    let ids := listdir imagesDir
    .ok { imagesDir := imagesDir
          masksDir := masksDir
          ids := ids
          images_fps := ids
          masks_fps := ids
          class_colors := cs.map classesGet }

/-- Dataset.__len__. -/
def datasetLen (ds : Dataset) : Nat := ds.ids.length

/-- Dataset.__getitem__: index the fps lists, read and color-convert the
image, read the mask, decode it against class_colors, and return the pair
(both transform slots being None in the modelled configuration). -/
def getItem (ds : Dataset) (i : Int) : Except PyErr (Raster × Tensor3) := do
  let ip ← listGet ds.images_fps i
  let image ← cvtColorBGR2RGB (imreadIn ds.imagesDir ip)
  let mp ← listGet ds.masks_fps i
  let mask := imreadIn ds.masksDir mp
  let m ← decode mask ds.class_colors
  .ok (image, m)

/-- The state of a constructed Dataloder. -/
structure Dataloder where
  dataset : Dataset
  batch_size : Nat
  shuffle : Bool
  indexes : List Nat
deriving DecidableEq, Repr

/-- Dataloder.on_epoch_end: replace indexes by the permutation drawn from
np.random.permutation when shuffle is set, otherwise do nothing.  The drawn
list stands for the random draw. -/
def onEpochEnd (dl : Dataloder) (drawn : List Nat) : Dataloder :=
  if dl.shuffle then { dl with indexes := drawn } else dl

/-- Dataloder.__init__: indexes starts as np.arange(len(dataset)) and the
constructor immediately calls on_epoch_end (drawn models the random draw the
constructor-time call would make when shuffle is set). -/
def dataloderInit (dataset : Dataset) (batch_size : Nat) (shuffle : Bool)
    (drawn : List Nat) : Dataloder :=
  onEpochEnd
    { dataset := dataset
      batch_size := batch_size
      shuffle := shuffle
      indexes := List.range (datasetLen dataset) }
    drawn

/-- Dataloder.__len__: len(self.indexes) // self.batch_size, with Python
floor division raising ZeroDivisionError on a zero batch size. -/
def dataloderLen (dl : Dataloder) : Except PyErr Nat :=
  if dl.batch_size = 0 then .error .zeroDivisionError
  else .ok (dl.indexes.length / dl.batch_size)

/-- The loop for j in range(start, stop): data.append(self.dataset[j]); the
first exception propagates. -/
def collect {α : Type} (f : Int → Except PyErr α) : List Int → Except PyErr (List α)
  | [] => .ok []
  | j :: js => do
    let v ← f j
    let vs ← collect f js
    .ok (v :: vs)

/-- The 3-d shape of a tensor read off its leading entries, as numpy reports
for a rectangular array. -/
def shape3 (t : Tensor3) : Nat × Nat × Nat :=
  (t.length, (t.headD []).length, ((t.headD []).headD []).length)

/-- np.stack(samples, axis=0): raises ValueError on an empty list or a shape
mismatch; otherwise the stacked array indexed along its new leading axis is
exactly the list of samples. -/
def npStack0 (ts : List Tensor3) : Except PyErr (List Tensor3) :=
  match ts with
  | [] => .error .valueError
  | t :: _ =>
    if ts.all (fun u => shape3 u == shape3 t) then .ok ts
    else .error .valueError

/-- The 4-d shape of a stacked batch. -/
def shape4 (b : List Tensor3) : Nat × Nat × Nat × Nat :=
  (b.length, shape3 (b.headD []))

/-- The comprehension [np.stack(samples, axis=0) for samples in zip(*data)]:
stack each component list, the first exception propagating. -/
def collectStacks : List (List Tensor3) → Except PyErr (List (List Tensor3))
  | [] => .ok []
  | c :: cs => do
    let s ← npStack0 c
    let ss ← collectStacks cs
    .ok (s :: ss)

/-- Dataloder.__getitem__: collect dataset[j] for j in
range(i*batch_size, (i+1)*batch_size) - note the loop uses j directly and
never reads self.indexes - then zip(*data) and np.stack each component along
a new leading axis.  zip of a non-empty list of pairs yields exactly the two
component tuples; zip of an empty list yields nothing. -/
def dlGetBatch (dl : Dataloder) (i : Int) : Except PyErr (List (List Tensor3)) := do
  let start : Int := i * (dl.batch_size : Int)
  let stop : Int := (i + 1) * (dl.batch_size : Int)
  let data ← collect (fun j => getItem dl.dataset j) (pyRange start stop)
  let cols : List (List Tensor3) :=
    if data.isEmpty then []
    else [data.map (fun s => s.1), data.map (fun s => s.2)]
  let batch ← collectStacks cols
  .ok batch

/-! ### Helper lemmas about the embedded operations -/

theorem ok_bind {α β : Type} (a : α) (f : α → Except PyErr β) :
    (Except.ok a >>= f) = f a := rfl

theorem err_bind {α β : Type} (e : PyErr) (f : α → Except PyErr β) :
    ((Except.error e : Except PyErr α) >>= f) = .error e := rfl

theorem listGet_ofNat {α : Type} (xs : List α) (i : Nat) (h : i < xs.length) :
    listGet xs (i : Int) = .ok (xs.get ⟨i, h⟩) := by
  simp only [listGet]
  rw [if_neg (show ¬ ((i : Int) < 0) by omega)]
  rw [if_pos (by omega)]
  have ht : ((i : Int)).toNat = i := by omega
  rw [ht, List.get?_eq_get h]

theorem listGet_ge {α : Type} (xs : List α) (i : Int)
    (h : (xs.length : Int) ≤ i) :
    listGet xs i = .error .indexError := by
  simp only [listGet]
  rw [if_neg (show ¬ (i < 0) by omega)]
  rw [if_pos (by omega)]
  have hn : xs.get? i.toNat = none := by
    apply List.get?_eq_none.mpr
    omega
  rw [hn]

theorem listGet_lt_neg {α : Type} (xs : List α) (i : Int)
    (h : i + xs.length < 0) :
    listGet xs i = .error .indexError := by
  simp only [listGet]
  rw [if_pos (show i < 0 by omega)]
  rw [if_neg (by omega)]

theorem listGet_neg_shift {α : Type} (xs : List α) (i : Int)
    (h0 : i < 0) (h1 : 0 ≤ i + xs.length) :
    listGet xs i = listGet xs (i + xs.length) := by
  simp only [listGet]
  rw [if_pos h0]
  rw [if_neg (show ¬ (i + (xs.length : Int) < 0) by omega)]

theorem mem_pyRange (a b j : Int) : j ∈ pyRange a b ↔ a ≤ j ∧ j < b := by
  unfold pyRange
  constructor
  · intro hj
    rcases List.mem_map.mp hj with ⟨k, hk, he⟩
    rw [List.mem_range] at hk
    omega
  · intro hj
    apply List.mem_map.mpr
    refine ⟨(j - a).toNat, ?_, ?_⟩
    · rw [List.mem_range]
      omega
    · omega

theorem length_pyRange (a b : Int) : (pyRange a b).length = (b - a).toNat := by
  unfold pyRange
  rw [List.length_map, List.length_range]

theorem pyRange_ne_nil (a b : Int) (h : a < b) : pyRange a b ≠ [] := by
  intro hn
  have hl := congrArg List.length hn
  rw [length_pyRange] at hl
  simp only [List.length_nil] at hl
  omega

/-- The plane the comprehension builds for one entry of class_colors
(always defined when the mask was loaded). -/
def planeOf (m : Raster) : Option Color → Plane
  | some c => m.map (fun row => row.map (fun px => px == c))
  | none => m.map (fun row => row.map (fun _ => false))

theorem eqAll_some (m : Raster) (c : Option Color) :
    eqAll (some m) c = .ok (planeOf m c) := by
  cases c <;> rfl

theorem mapPlanes_some (m : Raster) (cs : List (Option Color)) :
    mapPlanes (some m) cs = .ok (cs.map (planeOf m)) := by
  induction cs with
  | nil => rfl
  | cons c cs ih =>
    unfold mapPlanes
    rw [eqAll_some, ok_bind, ih, ok_bind]
    rfl

theorem length_planeOf (m : Raster) (c : Option Color) :
    (planeOf m c).length = m.length := by
  cases c <;> simp [planeOf]

theorem headD_planeOf (m : Raster) (c : Option Color) :
    ((planeOf m c).headD []).length = (m.headD []).length := by
  cases c <;> cases m <;> simp [planeOf]

theorem shape2_planeOf (m : Raster) (c : Option Color) :
    shape2 (planeOf m c) = (m.length, (m.headD []).length) := by
  unfold shape2
  rw [length_planeOf, headD_planeOf]

theorem getD_map_lt {α β : Type} (l : List α) (f : α → β) (n : Nat)
    (d : β) (d' : α) (h : n < l.length) :
    (l.map f).getD n d = f (l.getD n d') := by
  rw [List.getD_eq_getElem (l.map f) d (by simpa using h)]
  rw [List.getD_eq_getElem l d' h]
  simp

theorem getD_map_ge {α β : Type} (l : List α) (f : α → β) (n : Nat)
    (d : β) (h : l.length ≤ n) :
    (l.map f).getD n d = d := by
  apply List.getD_eq_default
  simpa using h

theorem getD_range_map_lt {β : Type} (n r : Nat) (f : Nat → β) (d : β)
    (h : r < n) :
    (((List.range n).map f).getD r d) = f r := by
  rw [getD_map_lt (List.range n) f r d 0 (by simpa using h)]
  rw [List.getD_eq_getElem _ _ (by simpa using h)]
  simp

/-- The value the decoder produces for a loaded mask: class planes
interleaved along a new trailing axis and converted to float. -/
def rawVal (m : Raster) (colors : List (Option Color)) : Tensor3 :=
  (List.range m.length).map (fun r =>
    (List.range (m.headD []).length).map (fun c =>
      colors.map (fun col =>
        if ((planeOf m col).getD r []).getD c false then 1 else 0)))

theorem decode_some_eq_raw (m : Raster) (colors : List (Option Color))
    (h : colors ≠ []) :
    decode (some m) colors = .ok (rawVal m colors) := by
  rcases colors with _ | ⟨c0, rest⟩
  · exact absurd rfl h
  unfold decode
  rw [mapPlanes_some, ok_bind]
  have hall : ((c0 :: rest).map (planeOf m)).all
      (fun q => shape2 q == shape2 (planeOf m c0)) = true := by
    apply List.all_eq_true.mpr
    intro q hq
    rcases List.mem_map.mp hq with ⟨col, _, rfl⟩
    rw [shape2_planeOf, shape2_planeOf]
    exact beq_self_eq_true _
  simp only [List.map_cons] at hall ⊢
  simp only [npStackLast]
  rw [if_pos hall]
  rw [ok_bind]
  congr 1
  rw [length_planeOf]
  have hw : ((planeOf m c0).headD []).length = (m.headD []).length :=
    headD_planeOf m c0
  rw [hw]
  simp only [rawVal, astypeFloat, List.map_map, Function.comp_def, List.map_cons]

/-- Whether a pixel matches one entry of class_colors: equality with a real
color, constant false against a missing (None) color. -/
def colMatch (px : List Nat) : Option Color → Bool
  | some c => px == c
  | none => false

/-- A rectangular raster: every row has the width read off the first row. -/
def RectP (m : Raster) : Prop := ∀ row ∈ m, row.length = (m.headD []).length

theorem plane_getD (m : Raster) (col : Option Color) (r c : Nat)
    (hr : r < m.length) (hc : c < (m.getD r []).length) :
    ((planeOf m col).getD r []).getD c false
      = colMatch ((m.getD r []).getD c []) col := by
  cases col with
  | some cl =>
    show ((m.map (fun row => row.map (fun px => px == cl))).getD r []).getD c false = _
    rw [getD_map_lt m _ r [] [] hr]
    rw [getD_map_lt (m.getD r []) _ c false [] hc]
    rfl
  | none =>
    show ((m.map (fun row => row.map (fun _ => false))).getD r []).getD c false = _
    rw [getD_map_lt m _ r [] [] hr]
    rw [getD_map_lt (m.getD r []) _ c false [] hc]
    rfl

theorem getD_mem' {α : Type} (l : List α) (n : Nat) (d : α) (h : n < l.length) :
    l.getD n d ∈ l := by
  rw [List.getD_eq_getElem l d h]
  exact List.getElem_mem h

theorem rawVal_getD (m : Raster) (colors : List (Option Color)) (r c k : Nat)
    (hrect : RectP m)
    (hr : r < m.length) (hc : c < (m.headD []).length) (hk : k < colors.length) :
    (((rawVal m colors).getD r []).getD c []).getD k 0
      = if colMatch ((m.getD r []).getD c []) (colors.getD k none) then 1 else 0 := by
  unfold rawVal
  rw [getD_range_map_lt _ r _ [] hr]
  rw [getD_range_map_lt _ c _ [] hc]
  rw [getD_map_lt colors _ k 0 none hk]
  rw [plane_getD m _ r c hr (by rw [hrect (m.getD r []) (getD_mem' m r [] hr)]; exact hc)]

theorem rawVal_getD_none (m : Raster) (colors : List (Option Color)) (k : Nat)
    (hk : k < colors.length) (hnone : colors.getD k none = none) (r c : Nat) :
    (((rawVal m colors).getD r []).getD c []).getD k 0 = 0 := by
  unfold rawVal
  by_cases hr : r < m.length
  · rw [getD_range_map_lt _ r _ [] hr]
    by_cases hc : c < (m.headD []).length
    · rw [getD_range_map_lt _ c _ [] hc]
      rw [getD_map_lt colors _ k 0 none hk]
      rw [hnone]
      show (if ((planeOf m none).getD r []).getD c false then 1 else 0) = 0
      have hpl : ((planeOf m none).getD r []).getD c false = false := by
        show (((m.map (fun row => row.map (fun _ => false))).getD r []).getD c false) = false
        rw [getD_map_lt m _ r [] [] hr]
        by_cases hc2 : c < (m.getD r []).length
        · rw [getD_map_lt (m.getD r []) _ c false [] hc2]
        · rw [getD_map_ge (m.getD r []) _ c false (by omega)]
      rw [hpl]
      rfl
    · rw [getD_map_ge _ _ c [] (by rw [List.length_range]; omega)]
      rfl
  · rw [getD_map_ge _ _ r [] (by rw [List.length_range]; omega)]
    rfl

theorem headD_range_map {β : Type} (n : Nat) (f : Nat → β) (d : β) (h : 0 < n) :
    (((List.range n).map f).headD d) = f 0 := by
  cases n with
  | zero => omega
  | succ k =>
    rw [List.range_succ_eq_map]
    rfl

theorem shape3_rawVal (m : Raster) (colors : List (Option Color))
    (hH : 0 < m.length) (hW : 0 < (m.headD []).length) :
    shape3 (rawVal m colors) = (m.length, (m.headD []).length, colors.length) := by
  unfold shape3 rawVal
  rw [List.length_map, List.length_range]
  rw [headD_range_map _ _ [] hH]
  rw [List.length_map, List.length_range]
  rw [headD_range_map _ _ [] hW]
  rw [List.length_map]

theorem shape3_bgr2rgb (m : Raster) : shape3 (bgr2rgb m) = shape3 m := by
  cases m with
  | nil => rfl
  | cons row rows =>
    unfold shape3 bgr2rgb
    simp only [List.map_cons, List.length_cons, List.length_map, List.headD_cons]
    cases row with
    | nil => rfl
    | cons px pxs =>
      simp [List.length_reverse]

theorem imreadIn_isSome_of_mem (d : Dir) (a : String) (h : a ∈ listdir d) :
    (imreadIn d a).isSome = true := by
  unfold listdir at h
  rcases List.mem_map.mp h with ⟨p, hp, rfl⟩
  unfold imreadIn
  have hf : (List.find? (fun q => q.1 == p.1) d).isSome = true :=
    List.find?_isSome.mpr ⟨p, hp, by simp⟩
  rcases Option.isSome_iff_exists.mp hf with ⟨q, hq⟩
  rw [hq]
  rfl

theorem datasetInit_some (I M : Dir) (cs : List String) :
    datasetInit I M (some cs)
      = .ok ⟨I, M, listdir I, listdir I, listdir I, cs.map classesGet⟩ := rfl

theorem datasetInit_inv (I M : Dir) (cs : List String) (ds : Dataset)
    (h : datasetInit I M (some cs) = .ok ds) :
    ds = ⟨I, M, listdir I, listdir I, listdir I, cs.map classesGet⟩ := by
  rw [datasetInit_some] at h
  exact (Except.ok.inj h).symm

theorem get_eq_getD {α : Type} (l : List α) (i : Nat) (h : i < l.length) (d : α) :
    l.get ⟨i, h⟩ = l.getD i d := by
  rw [List.getD_eq_getElem l d h]
  rfl

theorem getItem_eq_of (ds : Dataset) (i : Nat)
    (hfps : ds.masks_fps = ds.images_fps)
    (hi : i < ds.images_fps.length) (img m : Raster)
    (himg : imreadIn ds.imagesDir (ds.images_fps.getD i "") = some img)
    (hm : imreadIn ds.masksDir (ds.images_fps.getD i "") = some m)
    (hcc : ds.class_colors ≠ []) :
    getItem ds (i : Int) = .ok (bgr2rgb img, rawVal m ds.class_colors) := by
  unfold getItem
  rw [listGet_ofNat ds.images_fps i hi, ok_bind]
  rw [get_eq_getD ds.images_fps i hi "", himg]
  show (Except.ok (bgr2rgb img) >>= _) = _
  rw [ok_bind]
  rw [hfps]
  rw [listGet_ofNat ds.images_fps i hi, ok_bind]
  rw [get_eq_getD ds.images_fps i hi "", hm]
  simp only [decode_some_eq_raw m ds.class_colors hcc, ok_bind]

theorem getItem_isOk (ds : Dataset) (i : Nat)
    (hfps : ds.masks_fps = ds.images_fps)
    (hi : i < ds.images_fps.length)
    (himg : (imreadIn ds.imagesDir (ds.images_fps.getD i "")).isSome = true)
    (hm : (imreadIn ds.masksDir (ds.images_fps.getD i "")).isSome = true)
    (hcc : ds.class_colors ≠ []) :
    ∃ v, getItem ds (i : Int) = .ok v := by
  rcases Option.isSome_iff_exists.mp himg with ⟨img, h1⟩
  rcases Option.isSome_iff_exists.mp hm with ⟨m, h2⟩
  exact ⟨_, getItem_eq_of ds i hfps hi img m h1 h2 hcc⟩

theorem getItem_ge (ds : Dataset) (i : Int)
    (h : (ds.images_fps.length : Int) ≤ i) :
    getItem ds i = .error .indexError := by
  unfold getItem
  rw [listGet_ge ds.images_fps i h, err_bind]

theorem getItem_lt_neg (ds : Dataset) (i : Int)
    (h : i + ds.images_fps.length < 0) :
    getItem ds i = .error .indexError := by
  unfold getItem
  rw [listGet_lt_neg ds.images_fps i h, err_bind]

theorem mapPlanes_none_cons (c : Color) (rest : List (Option Color)) :
    mapPlanes none (some c :: rest) = .error .axisError := by
  unfold mapPlanes
  rfl

theorem decode_none_cons (c : Color) (rest : List (Option Color)) :
    decode none (some c :: rest) = .error .axisError := by
  unfold decode
  rw [mapPlanes_none_cons, err_bind]

theorem getItem_missing_mask (ds : Dataset) (i : Nat)
    (hfps : ds.masks_fps = ds.images_fps)
    (hi : i < ds.images_fps.length)
    (himg : (imreadIn ds.imagesDir (ds.images_fps.getD i "")).isSome = true)
    (hm : imreadIn ds.masksDir (ds.images_fps.getD i "") = none)
    (hcc : ∃ c rest, ds.class_colors = some c :: rest) :
    getItem ds (i : Int) = .error .axisError := by
  rcases Option.isSome_iff_exists.mp himg with ⟨img, h1⟩
  rcases hcc with ⟨c, rest, hcc⟩
  unfold getItem
  rw [listGet_ofNat ds.images_fps i hi, ok_bind]
  rw [get_eq_getD ds.images_fps i hi "", h1]
  show (Except.ok (bgr2rgb img) >>= _) = _
  rw [ok_bind]
  rw [hfps]
  rw [listGet_ofNat ds.images_fps i hi, ok_bind]
  rw [get_eq_getD ds.images_fps i hi "", hm]
  rw [hcc]
  simp only [decode_none_cons, err_bind]

theorem collect_map {α : Type} (f : Int → Except PyErr α) (g : Int → α)
    (l : List Int) (h : ∀ j ∈ l, f j = .ok (g j)) :
    collect f l = .ok (l.map g) := by
  induction l with
  | nil => rfl
  | cons j js ih =>
    unfold collect
    rw [h j (by simp), ok_bind]
    rw [ih (fun j' hj' => h j' (by simp [hj']))]
    rw [ok_bind]
    rfl

theorem collect_err {α : Type} (f : Int → Except PyErr α) (l : List Int)
    (N : Int) (e : PyErr)
    (hok : ∀ j ∈ l, j < N → ∃ v, f j = .ok v)
    (herr : ∀ j ∈ l, N ≤ j → f j = .error e)
    (hex : ∃ j ∈ l, N ≤ j) :
    collect f l = .error e := by
  induction l with
  | nil => rcases hex with ⟨j, hj, _⟩; exact absurd hj (by simp)
  | cons j js ih =>
    by_cases hj : N ≤ j
    · unfold collect
      rw [herr j (by simp) hj, err_bind]
    · rcases hok j (by simp) (by omega) with ⟨v, hv⟩
      unfold collect
      rw [hv, ok_bind]
      have hex' : ∃ j' ∈ js, N ≤ j' := by
        rcases hex with ⟨j', hj', hN⟩
        rcases List.mem_cons.mp hj' with h | h
        · exact absurd (h ▸ hN) hj
        · exact ⟨j', h, hN⟩
      rw [ih (fun j' hj' => hok j' (by simp [hj'])) (fun j' hj' => herr j' (by simp [hj'])) hex']
      rw [err_bind]

theorem onEpochEnd_dataset (dl : Dataloder) (drawn : List Nat) :
    (onEpochEnd dl drawn).dataset = dl.dataset := by
  unfold onEpochEnd
  split <;> rfl

theorem onEpochEnd_batch_size (dl : Dataloder) (drawn : List Nat) :
    (onEpochEnd dl drawn).batch_size = dl.batch_size := by
  unfold onEpochEnd
  split <;> rfl

theorem init_dataset (ds : Dataset) (bs : Nat) (sh : Bool) (drawn : List Nat) :
    (dataloderInit ds bs sh drawn).dataset = ds := by
  unfold dataloderInit
  rw [onEpochEnd_dataset]

theorem init_batch_size (ds : Dataset) (bs : Nat) (sh : Bool) (drawn : List Nat) :
    (dataloderInit ds bs sh drawn).batch_size = bs := by
  unfold dataloderInit
  rw [onEpochEnd_batch_size]

theorem init_indexes (ds : Dataset) (bs : Nat) (sh : Bool) (drawn : List Nat) :
    (dataloderInit ds bs sh drawn).indexes
      = if sh then drawn else List.range (datasetLen ds) := by
  unfold dataloderInit onEpochEnd
  cases sh <;> rfl

theorem npStack0_ok (ts : List Tensor3) (s : Nat × Nat × Nat)
    (hne : ts ≠ []) (hsh : ∀ u ∈ ts, shape3 u = s) :
    npStack0 ts = .ok ts := by
  cases ts with
  | nil => exact absurd rfl hne
  | cons t rest =>
    simp only [npStack0]
    rw [if_pos]
    apply List.all_eq_true.mpr
    intro u hu
    rw [hsh u hu, hsh t (by simp)]
    exact beq_self_eq_true _

theorem shape4_of (b : List Tensor3) (s : Nat × Nat × Nat)
    (hne : b ≠ []) (h : ∀ t ∈ b, shape3 t = s) :
    shape4 b = (b.length, s) := by
  cases b with
  | nil => exact absurd rfl hne
  | cons t ts =>
    unfold shape4
    rw [show (t :: ts).headD [] = t from rfl, h t (by simp)]

theorem pyRange_getD (a b : Int) (k : Nat) (hk : k < (b - a).toNat) :
    (pyRange a b).getD k 0 = a + k := by
  unfold pyRange
  rw [getD_map_lt _ _ k 0 0 (by rw [List.length_range]; exact hk)]
  rw [List.getD_eq_getElem _ _ (by rw [List.length_range]; exact hk)]
  simp

theorem collectStacks_pair (x y : List Tensor3)
    (hx : npStack0 x = .ok x) (hy : npStack0 y = .ok y) :
    collectStacks [x, y] = .ok [x, y] := by
  unfold collectStacks
  rw [hx, ok_bind]
  unfold collectStacks
  rw [hy, ok_bind]
  unfold collectStacks
  rw [ok_bind]
  rfl

theorem dlGetBatch_ok
    (I M : Dir) (cs : List String) (ds : Dataset)
    (img msk : String → Raster) (H W bs : Nat) (sh : Bool) (drawn : List Nat)
    (b : Nat)
    (hinit : datasetInit I M (some cs) = .ok ds)
    (hcs : cs ≠ [])
    (himg : ∀ id ∈ ds.ids, imreadIn I id = some (img id) ∧ shape3 (img id) = (H, W, 3))
    (hmsk : ∀ id ∈ ds.ids, imreadIn M id = some (msk id) ∧ shape3 (msk id) = (H, W, 3))
    (hH : 0 < H) (hW : 0 < W) (hbs : 1 ≤ bs) (hb : b < datasetLen ds / bs) :
    ∃ imgs msks,
      dlGetBatch (dataloderInit ds bs sh drawn) (b : Int) = .ok [imgs, msks]
      ∧ shape4 imgs = (bs, H, W, 3)
      ∧ shape4 msks = (bs, H, W, cs.length)
      ∧ ∀ j : Nat, j < bs →
          getItem ds ((b * bs + j : Nat) : Int)
            = .ok (imgs.getD j [], msks.getD j []) := by
  have hds := datasetInit_inv I M cs ds hinit
  set N := (listdir I).length with hNdef
  have hids : ds.ids = listdir I := by rw [hds]
  have hifps : ds.images_fps = listdir I := by rw [hds]
  have hmfps : ds.masks_fps = listdir I := by rw [hds]
  have hcc : ds.class_colors = cs.map classesGet := by rw [hds]
  have hccne : ds.class_colors ≠ [] := by
    rw [hcc]
    simpa using hcs
  have hNlen : datasetLen ds = N := by rw [datasetLen, hids]
  -- the loop bounds
  have hstop_le : (b + 1) * bs ≤ N := by
    calc (b + 1) * bs ≤ (datasetLen ds / bs) * bs :=
          Nat.mul_le_mul_right bs (by omega)
      _ ≤ datasetLen ds := Nat.div_mul_le_self _ _
      _ = N := hNlen
  have hdiff : ((b : Int) + 1) * bs - (b : Int) * bs = (bs : Int) := by ring
  -- every index visited by the loop is a valid dataset index
  have hjN : ∀ j ∈ pyRange ((b : Int) * bs) (((b : Int) + 1) * bs),
      0 ≤ j ∧ j.toNat < N := by
    intro j hj
    rw [mem_pyRange] at hj
    have hs0 : 0 ≤ (b : Int) * bs := by positivity
    have hcast : (((b + 1) * bs : Nat) : Int) = ((b : Int) + 1) * bs := by push_cast; ring
    constructor
    · omega
    · omega
  -- the value each loop iteration produces
  have hsub : ∀ j ∈ pyRange ((b : Int) * bs) (((b : Int) + 1) * bs),
      getItem ds j
        = .ok (bgr2rgb (img ((listdir I).getD j.toNat "")),
               rawVal (msk ((listdir I).getD j.toNat "")) ds.class_colors) := by
    intro j hj
    rcases hjN j hj with ⟨hj0, hjlt⟩
    have hjcast : j = ((j.toNat : Nat) : Int) := by omega
    rw [hjcast]
    have hmemid : (listdir I).getD j.toNat "" ∈ ds.ids := by
      rw [hids]
      exact getD_mem' _ _ _ hjlt
    apply getItem_eq_of ds j.toNat (by rw [hmfps, hifps])
      (by rw [hifps]; exact hjlt)
    · rw [hds]
      show imreadIn I ((listdir I).getD j.toNat "") = _
      exact (himg _ hmemid).1
    · rw [hds]
      show imreadIn M ((listdir I).getD j.toNat "") = _
      exact (hmsk _ hmemid).1
    · exact hccne
  -- run the collection loop
  have hcol := collect_map (fun j => getItem ds j)
    (fun j => (bgr2rgb (img ((listdir I).getD j.toNat "")),
               rawVal (msk ((listdir I).getD j.toNat "")) ds.class_colors))
    (pyRange ((b : Int) * bs) (((b : Int) + 1) * bs)) hsub
  set g : Int → Raster × Tensor3 := fun j =>
    (bgr2rgb (img ((listdir I).getD j.toNat "")),
     rawVal (msk ((listdir I).getD j.toNat "")) ds.class_colors) with hgdef
  set data := (pyRange ((b : Int) * bs) (((b : Int) + 1) * bs)).map g with hdatadef
  have hrangelen : (pyRange ((b : Int) * bs) (((b : Int) + 1) * bs)).length = bs := by
    rw [length_pyRange, hdiff]
    omega
  have hdatalen : data.length = bs := by
    rw [hdatadef, List.length_map, hrangelen]
  have hdatane : data ≠ [] := by
    intro h
    rw [h] at hdatalen
    simp at hdatalen
    omega
  -- shapes of the collected samples
  have himgs_sh : ∀ t ∈ data.map (fun s => s.1), shape3 t = (H, W, 3) := by
    intro t ht
    rcases List.mem_map.mp ht with ⟨s, hs, rfl⟩
    rcases List.mem_map.mp hs with ⟨j, hjr, rfl⟩
    rcases hjN j hjr with ⟨_, hjlt⟩
    have hmemid : (listdir I).getD j.toNat "" ∈ ds.ids := by
      rw [hids]
      exact getD_mem' _ _ _ hjlt
    rw [hgdef]
    show shape3 (bgr2rgb (img _)) = _
    rw [shape3_bgr2rgb]
    exact (himg _ hmemid).2
  have hmsks_sh : ∀ t ∈ data.map (fun s => s.2), shape3 t = (H, W, cs.length) := by
    intro t ht
    rcases List.mem_map.mp ht with ⟨s, hs, rfl⟩
    rcases List.mem_map.mp hs with ⟨j, hjr, rfl⟩
    rcases hjN j hjr with ⟨_, hjlt⟩
    have hmemid : (listdir I).getD j.toNat "" ∈ ds.ids := by
      rw [hids]
      exact getD_mem' _ _ _ hjlt
    rcases hmsk _ hmemid with ⟨_, hsh3⟩
    have hcomp1 : (msk ((listdir I).getD j.toNat "")).length = H :=
      congrArg Prod.fst hsh3
    have hcomp2 : ((msk ((listdir I).getD j.toNat "")).headD []).length = W :=
      congrArg (fun p => p.2.1) hsh3
    rw [hgdef]
    show shape3 (rawVal (msk _) ds.class_colors) = _
    rw [shape3_rawVal _ _ (by omega) (by omega)]
    rw [hcomp1, hcomp2, hcc, List.length_map]
  have hine : data.map (fun s : Raster × Tensor3 => s.1) ≠ [] := by
    intro h
    exact hdatane (List.map_eq_nil_iff.mp h)
  have hmne : data.map (fun s : Raster × Tensor3 => s.2) ≠ [] := by
    intro h
    exact hdatane (List.map_eq_nil_iff.mp h)
  have hstack1 := npStack0_ok _ _ hine himgs_sh
  have hstack2 := npStack0_ok _ _ hmne hmsks_sh
  have hempty : data.isEmpty = false := by
    cases hd : data with
    | nil => exact absurd hd hdatane
    | cons x xs => rfl
  refine ⟨data.map (fun s => s.1), data.map (fun s => s.2), ?_, ?_, ?_, ?_⟩
  · -- the batch value
    simp only [dlGetBatch, init_dataset, init_batch_size]
    rw [hcol]
    simp only [ok_bind]
    rw [hempty]
    simp only [Bool.false_eq_true, if_false]
    rw [collectStacks_pair _ _ hstack1 hstack2]
    simp only [ok_bind]
  · rw [shape4_of _ _ hine himgs_sh, List.length_map, hdatalen]
  · rw [shape4_of _ _ hmne hmsks_sh, List.length_map, hdatalen]
  · intro j hj
    have hjlen : j < data.length := by omega
    rw [getD_map_lt data _ j [] ([], []) hjlen]
    rw [getD_map_lt data _ j [] ([], []) hjlen]
    rw [hdatadef]
    rw [getD_map_lt _ g j ([], []) 0 (by rw [hrangelen]; omega)]
    rw [pyRange_getD _ _ j (by rw [hdiff]; omega)]
    have hmem : (b : Int) * bs + j ∈ pyRange ((b : Int) * bs) (((b : Int) + 1) * bs) := by
      rw [mem_pyRange]
      constructor
      · omega
      · have : ((b : Int) + 1) * bs = (b : Int) * bs + bs := by ring
        omega
    have hval := hsub _ hmem
    have hcast : ((b * bs + j : Nat) : Int) = (b : Int) * bs + j := by push_cast; ring
    rw [hcast]
    show getItem ds ((b : Int) * bs + j) = Except.ok (g ((b : Int) * bs + j))
    exact hval

theorem dataloderLen_eq (ds : Dataset) (bs : Nat) (sh : Bool) (drawn : List Nat)
    (hbs : 1 ≤ bs) (hlen : drawn.length = datasetLen ds) :
    dataloderLen (dataloderInit ds bs sh drawn) = .ok (datasetLen ds / bs) := by
  unfold dataloderLen
  rw [init_batch_size, init_indexes]
  rw [if_neg (show ¬ bs = 0 by omega)]
  cases sh
  · simp
  · simp [hlen]

theorem list3_eq_iff (px col : List Nat) (h1 : px.length = 3) (h2 : col.length = 3) :
    px = col ↔ ∀ ch : Nat, ch < 3 → px.getD ch 0 = col.getD ch 0 := by
  constructor
  · intro h ch _
    rw [h]
  · intro h
    apply List.ext_getElem (by omega)
    intro n h1' h2'
    have hn := h n (by omega)
    rwa [List.getD_eq_getElem _ _ h1', List.getD_eq_getElem _ _ h2'] at hn

theorem classesGet_length (s : String) (col : Color)
    (h : classesGet s = some col) : col.length = 3 := by
  unfold classesGet at h
  rcases Option.map_eq_some'.mp h with ⟨p, hp, hcol⟩
  have hmem := List.mem_of_find?_eq_some hp
  rw [← hcol]
  fin_cases hmem <;> rfl

theorem rawVal_chan0 (m : Raster) (x y : Option Color) (r cc : Nat) :
    (((rawVal m [x, y]).getD r []).getD cc []).getD 0 0
      = (((rawVal m [x]).getD r []).getD cc []).getD 0 0 := by
  unfold rawVal
  by_cases hr : r < m.length
  · rw [getD_range_map_lt _ r _ [] hr, getD_range_map_lt _ r _ [] hr]
    by_cases hcc : cc < (m.headD []).length
    · rw [getD_range_map_lt _ cc _ [] hcc, getD_range_map_lt _ cc _ [] hcc]
      rfl
    · rw [getD_map_ge _ _ cc [] (by rw [List.length_range]; omega),
          getD_map_ge _ _ cc [] (by rw [List.length_range]; omega)]
  · rw [getD_map_ge _ _ r [] (by rw [List.length_range]; omega),
        getD_map_ge _ _ r [] (by rw [List.length_range]; omega)]

/-! ### Concrete fixtures used by witnesses and counterexamples -/

def imgA : Raster := [[[1, 2, 3]]]

def imgB : Raster := [[[4, 5, 6]]]

def exI2 : Dir := [("a", imgA), ("b", imgB)]

def exM2 : Dir := [("a", [[[255, 0, 0]]]), ("b", [[[255, 0, 0]]])]

def exDs2 : Dataset :=
  ⟨exI2, exM2, ["a", "b"], ["a", "b"], ["a", "b"], [some [255, 0, 0]]⟩

/-! ### The claims -/

/-- Claim C10: constructing a Dataset while leaving the classes parameter at
its None default always fails at construction time with a TypeError when the
class list is iterated, so the syntactically optional classes argument is in
fact required. -/
theorem claim_C10 (I M : Dir) : datasetInit I M none = .error .typeError := rfl

/-- Claim C4: for every dataset of size N and every positive batch size, the
batch loader length is floor(N / batch_size); a partial trailing batch of
size less than batch_size is silently dropped rather than being an error. -/
theorem claim_C4 (ds : Dataset) (bs : Nat) (sh : Bool) (drawn : List Nat)
    (hbs : 1 ≤ bs) (hperm : drawn.Perm (List.range (datasetLen ds))) :
    dataloderLen (dataloderInit ds bs sh drawn) = .ok (datasetLen ds / bs) :=
  dataloderLen_eq ds bs sh drawn hbs
    (hperm.length_eq.trans (List.length_range _))

def dir17 : Dir := List.replicate 17 ("x", ([] : Raster))

def ds17 : Dataset :=
  ⟨dir17, [], listdir dir17, listdir dir17, listdir dir17,
   [some [255, 0, 0]]⟩

/-- Witness for C4 at the spec example: 17 samples, batch size 8, length 2
(the trailing sample is dropped). -/
theorem claim_C4_witness :
    dataloderLen (dataloderInit ds17 8 false (List.range 17)) = .ok 2 := by
  rw [claim_C4 ds17 8 false (List.range 17) (by omega) (List.Perm.refl _)]
  rfl

/-- Claim C2 is a code bug: Dataloder.__getitem__ gathers dataset[j] for j in
range(i*batch_size, (i+1)*batch_size) directly and never reads self.indexes,
so the permutation that on_epoch_end re-shuffles has no effect on batches.
Here: two samples, batch_size 1, shuffle on, the epoch-end draw is the
permutation [1, 0], yet batch 0 still holds sample 0 (image a) rather than
sample indexes[0] = 1 (image b). -/
theorem claim_C2_bug :
    datasetInit exI2 exM2 (some ["animal"]) = .ok exDs2
    ∧ (onEpochEnd (dataloderInit exDs2 1 true [0, 1]) [1, 0]).indexes = [1, 0]
    ∧ dlGetBatch (onEpochEnd (dataloderInit exDs2 1 true [0, 1]) [1, 0]) 0
        = dlGetBatch (dataloderInit exDs2 1 true [0, 1]) 0
    ∧ dlGetBatch (onEpochEnd (dataloderInit exDs2 1 true [0, 1]) [1, 0]) 0
        = .ok [[[[[3, 2, 1]]]], [[[[1]]]]] :=
  ⟨rfl, rfl, rfl, rfl⟩

def exIfoo : Dir := [("a", imgA)]

def exMfoo : Dir := [("a", [[[255, 0, 0]]])]

def dsFoo : Dataset := ⟨exIfoo, exMfoo, ["a"], ["a"], ["a"], [none]⟩

/-- Counterexample to C1 as stated: with the unknown class name foo, both
Dataset construction and the first get call succeed - dict.get silently
stores None for the unknown name and the decoder emits an all-zero plane for
it, so no lookup error is ever raised. -/
theorem claim_C1_counterexample :
    datasetInit exIfoo exMfoo (some ["foo"]) = .ok dsFoo
    ∧ getItem dsFoo 0 = .ok ([[[3, 2, 1]]], [[[0]]]) :=
  ⟨rfl, rfl⟩

/-- Claim C1 (amended): for every class list, Dataset construction succeeds
even when a name is outside the fixed palette (dict.get yields None rather
than raising), and a get call that loads its mask succeeds and yields an
all-zero plane in the channel of the unknown class. -/
theorem claim_C1_amended :
    (∀ (I M : Dir) (cs : List String), ∃ ds, datasetInit I M (some cs) = .ok ds)
    ∧ (∀ (I M : Dir) (cs : List String) (ds : Dataset) (k i : Nat) (m : Raster),
        datasetInit I M (some cs) = .ok ds →
        k < cs.length →
        classesGet (cs.getD k "") = none →
        i < datasetLen ds →
        imreadIn M (ds.ids.getD i "") = some m →
        ∃ img t, getItem ds (i : Int) = .ok (img, t)
          ∧ ∀ r c : Nat, ((t.getD r []).getD c []).getD k 0 = 0) := by
  constructor
  · intro I M cs
    exact ⟨_, datasetInit_some I M cs⟩
  · intro I M cs ds k i m hinit hk hnone hi hm
    have hds := datasetInit_inv I M cs ds hinit
    subst hds
    have hcs : cs ≠ [] := by
      intro h
      rw [h] at hk
      simp at hk
    have hccne : (cs.map classesGet) ≠ [] := by simpa using hcs
    have hilen : i < (listdir I).length := hi
    have himg : (imreadIn I ((listdir I).getD i "")).isSome = true :=
      imreadIn_isSome_of_mem I _ (getD_mem' _ _ _ hilen)
    rcases Option.isSome_iff_exists.mp himg with ⟨img, himg2⟩
    refine ⟨bgr2rgb img, rawVal m (cs.map classesGet), ?_, ?_⟩
    · exact getItem_eq_of _ i rfl hilen img m himg2 hm hccne
    · intro r c
      apply rawVal_getD_none
      · rw [List.length_map]
        exact hk
      · rw [getD_map_lt cs classesGet k none "" hk]
        exact hnone

def dsAF : Dataset :=
  ⟨exI2, exM2, ["a", "b"], ["a", "b"], ["a", "b"], [some [255, 0, 0], none]⟩

/-- Witness for the amended C1: class list with the unknown name foo in
channel 1; the get call succeeds and channel 1 is all zero. -/
theorem claim_C1_witness :
    ∃ img t, getItem dsAF (0 : Nat) = .ok (img, t)
      ∧ ∀ r c : Nat, ((t.getD r []).getD c []).getD 1 0 = 0 :=
  claim_C1_amended.2 exI2 exM2 ["animal", "foo"] dsAF 1 0 [[[255, 0, 0]]]
    rfl (by decide) (by decide) (by decide) rfl

/-- Claim C3: in the decoded mask tensor returned by Dataset get, for every
pixel (r, c) and every channel k, the value is 1 iff the loaded mask image
value at (r, c) equals, in all 3 channels, the palette color of the k-th
class of the class list, and the planes are stacked in class-list order. -/
theorem claim_C3 (I M : Dir) (cs : List String) (ds : Dataset) (i : Nat)
    (m : Raster) (img : Raster) (t : Tensor3)
    (hinit : datasetInit I M (some cs) = .ok ds)
    (hvalid : ∀ cname ∈ cs, (classesGet cname).isSome = true)
    (hne : cs ≠ [])
    (hi : i < datasetLen ds)
    (hm : imreadIn M (ds.ids.getD i "") = some m)
    (hrect : RectP m)
    (hpx : ∀ row ∈ m, ∀ px ∈ row, px.length = 3)
    (hget : getItem ds (i : Int) = .ok (img, t)) :
    ∀ r c k : Nat, r < m.length → c < (m.headD []).length → k < cs.length →
      ((((t.getD r []).getD c []).getD k 0 = 1) ↔
        (∀ ch : Nat, ch < 3 →
          ((m.getD r []).getD c []).getD ch 0
            = ((classesGet (cs.getD k "")).getD []).getD ch 0)) := by
  have hds := datasetInit_inv I M cs ds hinit
  subst hds
  have hccne : (cs.map classesGet) ≠ [] := by simpa using hne
  have hilen : i < (listdir I).length := hi
  have himg : (imreadIn I ((listdir I).getD i "")).isSome = true :=
    imreadIn_isSome_of_mem I _ (getD_mem' _ _ _ hilen)
  rcases Option.isSome_iff_exists.mp himg with ⟨img0, himg2⟩
  have heq := getItem_eq_of
    (Dataset.mk I M (listdir I) (listdir I) (listdir I) (cs.map classesGet))
    i rfl hilen img0 m himg2 hm hccne
  rw [heq] at hget
  have ht : t = rawVal m (cs.map classesGet) :=
    (congrArg Prod.snd (Except.ok.inj hget)).symm
  subst ht
  intro r c k hr hc hk
  rw [rawVal_getD m _ r c k hrect hr hc (by rw [List.length_map]; exact hk)]
  rw [getD_map_lt cs classesGet k none "" hk]
  have hsome : (classesGet (cs.getD k "")).isSome = true :=
    hvalid _ (getD_mem' _ _ _ hk)
  rcases Option.isSome_iff_exists.mp hsome with ⟨col, hcol⟩
  rw [hcol]
  show ((if ((m.getD r []).getD c []) == col then 1 else 0 : Nat) = 1) ↔ _
  have hpxlen : ((m.getD r []).getD c []).length = 3 := by
    have hrow : (m.getD r []) ∈ m := getD_mem' _ _ _ hr
    have hclen : c < (m.getD r []).length := by
      rw [hrect _ hrow]
      exact hc
    exact hpx _ hrow _ (getD_mem' _ _ _ hclen)
  have hcollen : col.length = 3 := classesGet_length _ _ hcol
  constructor
  · intro h1
    have hbeq : (((m.getD r []).getD c []) == col) = true := by
      by_contra hb
      rw [Bool.not_eq_true] at hb
      rw [hb] at h1
      simp at h1
    have := beq_iff_eq.mp hbeq
    rw [Option.getD_some]
    exact (list3_eq_iff _ _ hpxlen hcollen).mp this
  · intro h2
    rw [Option.getD_some] at h2
    have := (list3_eq_iff _ _ hpxlen hcollen).mpr h2
    rw [show (((m.getD r []).getD c []) == col) = true from beq_iff_eq.mpr this]
    rfl

/-- Witness for C3 on a one-pixel dataset with class list [animal]: the
single mask pixel holds the animal color channel by channel, so by the iff
the decoded channel 0 value at that pixel is 1. -/
theorem claim_C3_witness :
    (([[[(1 : Nat)]]].getD 0 []).getD 0 []).getD 0 0 = 1 :=
  (claim_C3 exI2 exM2 ["animal"] exDs2 0 [[[255, 0, 0]]] [[[3, 2, 1]]] [[[1]]]
    rfl (by decide) (by decide) (by decide) rfl (by unfold RectP; decide)
    (by decide) rfl 0 0 0 (by decide) (by decide) (by decide)).mpr (by decide)

/-- Claim C5: for an id listed in the image directory without a same-named
mask counterpart, Dataset construction succeeds, and the get call for that
id fails - at get time, not at construction - with the numpy AxisError that
arises from comparing the None mask, an exception class that derives from
IndexError and hence from LookupError: a lookup failure. -/
theorem claim_C5 :
    (∀ (I M : Dir) (cs : List String), ∃ ds, datasetInit I M (some cs) = .ok ds)
    ∧ (∀ (I M : Dir) (cs : List String) (ds : Dataset) (i : Nat),
        datasetInit I M (some cs) = .ok ds →
        cs ≠ [] →
        (∀ cname ∈ cs, (classesGet cname).isSome = true) →
        i < datasetLen ds →
        imreadIn M (ds.ids.getD i "") = none →
        getItem ds (i : Int) = .error .axisError
          ∧ isLookupError .axisError = true) := by
  constructor
  · intro I M cs
    exact ⟨_, datasetInit_some I M cs⟩
  · intro I M cs ds i hinit hne hvalid hi hm
    have hds := datasetInit_inv I M cs ds hinit
    subst hds
    have hilen : i < (listdir I).length := hi
    have himg : (imreadIn I ((listdir I).getD i "")).isSome = true :=
      imreadIn_isSome_of_mem I _ (getD_mem' _ _ _ hilen)
    refine ⟨?_, rfl⟩
    apply getItem_missing_mask _ i rfl hilen himg hm
    rcases cs with _ | ⟨c0, rest⟩
    · exact absurd rfl hne
    · have hsome : (classesGet c0).isSome = true := hvalid c0 (by simp)
      rcases Option.isSome_iff_exists.mp hsome with ⟨col, hcol⟩
      exact ⟨col, rest.map classesGet, by simp [hcol]⟩

def exMmiss : Dir := [("a", [[[255, 0, 0]]])]

def dsMiss : Dataset :=
  ⟨exI2, exMmiss, ["a", "b"], ["a", "b"], ["a", "b"], [some [255, 0, 0]]⟩

/-- Witness for C5: id b has an image but no mask file; construction
succeeded and get 1 fails with the AxisError lookup failure. -/
theorem claim_C5_witness :
    getItem dsMiss (1 : Nat) = .error .axisError
      ∧ isLookupError .axisError = true :=
  claim_C5.2 exI2 exMmiss ["animal"] dsMiss 1 rfl (by decide) (by decide)
    (by decide) rfl

/-- Counterexample to C6 as stated: index -1 lies outside 0 <= i < length()
for this 2-sample dataset, yet Dataset get succeeds on it (Python negative
indexing), returning the last sample instead of an index error. -/
theorem claim_C6_counterexample :
    datasetLen exDs2 = 2
    ∧ getItem exDs2 (-1) = .ok ([[[6, 5, 4]]], [[[1]]]) :=
  ⟨rfl, rfl⟩

/-- Claim C6 (amended): Dataset get fails with an IndexError for every index
at or above length() and for every index below -length(); the batch loader
get fails with an IndexError for every batch index at or above its length()
(given well-formed files so no earlier error preempts the loop).  Indices in
[-length(), 0) are instead accepted by Python negative indexing. -/
theorem claim_C6_amended :
    (∀ (I M : Dir) (cs : List String) (ds : Dataset) (i : Int),
        datasetInit I M (some cs) = .ok ds →
        (datasetLen ds : Int) ≤ i →
        getItem ds i = .error .indexError)
    ∧ (∀ (I M : Dir) (cs : List String) (ds : Dataset) (i : Int),
        datasetInit I M (some cs) = .ok ds →
        i < -(datasetLen ds : Int) →
        getItem ds i = .error .indexError)
    ∧ (∀ (I M : Dir) (cs : List String) (ds : Dataset) (bs : Nat) (sh : Bool)
        (drawn : List Nat) (b : Int),
        datasetInit I M (some cs) = .ok ds →
        cs ≠ [] →
        (∀ id ∈ ds.ids, (imreadIn M id).isSome = true) →
        1 ≤ bs →
        ((datasetLen ds / bs : Nat) : Int) ≤ b →
        dlGetBatch (dataloderInit ds bs sh drawn) b = .error .indexError) := by
  refine ⟨?_, ?_, ?_⟩
  · intro I M cs ds i hinit hge
    have hds := datasetInit_inv I M cs ds hinit
    subst hds
    exact getItem_ge _ i hge
  · intro I M cs ds i hinit hlt
    have hds := datasetInit_inv I M cs ds hinit
    subst hds
    apply getItem_lt_neg
    show i + ((listdir I).length : Int) < 0
    have hlt' : i < -(((listdir I).length : Nat) : Int) := hlt
    omega
  · intro I M cs ds bs sh drawn b hinit hcs hmask hbs hbL
    have hds := datasetInit_inv I M cs ds hinit
    subst hds
    have hbL' : (((listdir I).length / bs : Nat) : Int) ≤ b := hbL
    have hb0 : 0 ≤ (b : Int) := le_trans (Int.natCast_nonneg _) hbL'
    have hstart0 : 0 ≤ (b : Int) * bs :=
      mul_nonneg hb0 (Int.natCast_nonneg _)
    have hbs1 : (1 : Int) ≤ (bs : Int) := by exact_mod_cast hbs
    simp only [dlGetBatch, init_dataset, init_batch_size]
    have hcol := collect_err
      (fun j => getItem
        (Dataset.mk I M (listdir I) (listdir I) (listdir I) (cs.map classesGet)) j)
      (pyRange ((b : Int) * bs) (((b : Int) + 1) * bs))
      ((listdir I).length : Int) .indexError
      ?hok ?herr ?hex
    · rw [hcol]
      rfl
    case hok =>
      intro j hjr hjN
      rw [mem_pyRange] at hjr
      have hj0 : 0 ≤ j := le_trans hstart0 hjr.1
      have hjlt : j.toNat < (listdir I).length := by omega
      rw [show j = ((j.toNat : Nat) : Int) from by omega]
      apply getItem_isOk _ j.toNat rfl hjlt
      · exact imreadIn_isSome_of_mem I _ (getD_mem' _ _ _ hjlt)
      · exact hmask _ (getD_mem' _ _ _ hjlt)
      · simpa using hcs
    case herr =>
      intro j hjr hN
      exact getItem_ge _ j hN
    case hex =>
      refine ⟨max ((b : Int) * bs) ((listdir I).length : Int), ?_,
        le_max_right _ _⟩
      rw [mem_pyRange]
      refine ⟨le_max_left _ _, ?_⟩
      have hexp : ((b : Int) + 1) * bs = (b : Int) * bs + bs := by ring
      rw [hexp]
      rcases max_cases ((b : Int) * bs) (((listdir I).length : Nat) : Int) with
        ⟨hmax, _⟩ | ⟨hmax, _⟩
      · rw [hmax]
        linarith
      · rw [hmax]
        have hbspos : 0 < bs := by omega
        have hmod : (listdir I).length % bs < bs := Nat.mod_lt _ hbspos
        have hkey : (listdir I).length
            < bs * ((listdir I).length / bs) + bs := by
          conv_lhs => rw [← Nat.div_add_mod (listdir I).length bs]
          exact Nat.add_lt_add_left hmod _
        have hkey' : ((listdir I).length : Int)
            < (bs : Int) * (((listdir I).length / bs : Nat) : Int) + bs := by
          exact_mod_cast hkey
        rw [mul_comm ((bs : Int)) (((listdir I).length / bs : Nat) : Int)]
          at hkey'
        have hmul : (((listdir I).length / bs : Nat) : Int) * bs
            ≤ (b : Int) * bs :=
          mul_le_mul_of_nonneg_right hbL' (Int.natCast_nonneg _)
        linarith

/-- Witness for the amended C6 on the 2-sample fixture: index 5 and index -9
fail on the Dataset, and batch index 2 fails on a loader of length 2. -/
theorem claim_C6_witness :
    getItem exDs2 5 = .error .indexError
    ∧ getItem exDs2 (-9) = .error .indexError
    ∧ dlGetBatch (dataloderInit exDs2 1 false []) 2 = .error .indexError :=
  ⟨claim_C6_amended.1 exI2 exM2 ["animal"] exDs2 5 rfl (by decide),
   claim_C6_amended.2.1 exI2 exM2 ["animal"] exDs2 (-9) rfl (by decide),
   claim_C6_amended.2.2 exI2 exM2 ["animal"] exDs2 1 false [] 2 rfl
     (by decide) (by decide) (by decide) (by decide)⟩

theorem getItem_shift (ds : Dataset) (i : Int)
    (hfps : ds.masks_fps = ds.images_fps)
    (hneg : i < 0) (hge : 0 ≤ i + ds.images_fps.length) :
    getItem ds i = getItem ds (i + ds.images_fps.length) := by
  unfold getItem
  simp only [hfps, listGet_neg_shift ds.images_fps i hneg hge]

/-- Claim C9 (implicit): for a Dataset of length N >= 1 and -N <= i <= -1,
Dataset get does not fail with an index error but returns the sample at
position N + i, via Python negative indexing into the filename lists. -/
theorem claim_C9 (I M : Dir) (cs : List String) (ds : Dataset) (i : Int)
    (hinit : datasetInit I M (some cs) = .ok ds)
    (hcs : cs ≠ [])
    (hmask : ∀ id ∈ ds.ids, (imreadIn M id).isSome = true)
    (hneg : i < 0) (hge : -(datasetLen ds : Int) ≤ i) :
    getItem ds i = getItem ds (i + (datasetLen ds : Int))
    ∧ ∃ v, getItem ds i = .ok v := by
  have hds := datasetInit_inv I M cs ds hinit
  subst hds
  have hge' : -(((listdir I).length : Nat) : Int) ≤ i := hge
  have hshift := getItem_shift
    (Dataset.mk I M (listdir I) (listdir I) (listdir I) (cs.map classesGet))
    i rfl hneg (by show 0 ≤ i + ((listdir I).length : Int); omega)
  refine ⟨hshift, ?_⟩
  rw [hshift]
  have hlt : (i + ((listdir I).length : Int)).toNat < (listdir I).length := by
    omega
  rw [show i + ((((listdir I).length : Nat)) : Int)
      = (((i + (listdir I).length).toNat : Nat) : Int) from by omega]
  apply getItem_isOk _ _ rfl hlt
  · exact imreadIn_isSome_of_mem I _ (getD_mem' _ _ _ hlt)
  · exact hmask _ (getD_mem' _ _ _ hlt)
  · simpa using hcs

/-- Witness for C9: get(-1) on the 2-sample fixture equals get(1) and
succeeds. -/
theorem claim_C9_witness :
    getItem exDs2 (-1) = getItem exDs2 (-1 + (datasetLen exDs2 : Int))
    ∧ ∃ v, getItem exDs2 (-1) = .ok v :=
  claim_C9 exI2 exM2 ["animal"] exDs2 (-1) rfl (by decide) (by decide)
    (by decide) (by decide)

/-- Claim C7: for every in-range batch index, the batch loader stacks the
per-sample images into one array and the per-sample masks into another,
each along a new leading batch axis whose entry j is the sample at dataset
index b*batch_size + j; the loader length is floor(N / batch_size), and with
identically shaped H x W samples the image batch has shape
(batch_size, H, W, 3) and the mask batch (batch_size, H, W, K) for K
selected classes. -/
theorem claim_C7 (I M : Dir) (cs : List String) (ds : Dataset)
    (img msk : String → Raster) (H W bs : Nat) (sh : Bool) (drawn : List Nat)
    (b : Nat)
    (hinit : datasetInit I M (some cs) = .ok ds)
    (hcs : cs ≠ [])
    (himg : ∀ id ∈ ds.ids,
      imreadIn I id = some (img id) ∧ shape3 (img id) = (H, W, 3))
    (hmsk : ∀ id ∈ ds.ids,
      imreadIn M id = some (msk id) ∧ shape3 (msk id) = (H, W, 3))
    (hH : 0 < H) (hW : 0 < W) (hbs : 1 ≤ bs)
    (hb : b < datasetLen ds / bs)
    (hperm : drawn.Perm (List.range (datasetLen ds))) :
    dataloderLen (dataloderInit ds bs sh drawn) = .ok (datasetLen ds / bs)
    ∧ ∃ imgs msks,
      dlGetBatch (dataloderInit ds bs sh drawn) (b : Int) = .ok [imgs, msks]
      ∧ shape4 imgs = (bs, H, W, 3)
      ∧ shape4 msks = (bs, H, W, cs.length)
      ∧ ∀ j : Nat, j < bs →
          getItem ds ((b * bs + j : Nat) : Int)
            = .ok (imgs.getD j [], msks.getD j []) :=
  ⟨dataloderLen_eq ds bs sh drawn hbs
      (hperm.length_eq.trans (List.length_range _)),
   dlGetBatch_ok I M cs ds img msk H W bs sh drawn b hinit hcs himg hmsk
      hH hW hbs hb⟩

def img64 : Raster := List.replicate 64 (List.replicate 64 [9, 8, 7])

def msk64 : Raster := List.replicate 64 (List.replicate 64 [0, 0, 255])

def names10 : List String :=
  ["f0", "f1", "f2", "f3", "f4", "f5", "f6", "f7", "f8", "f9"]

def I10 : Dir := names10.map (fun n => (n, img64))

def M10 : Dir := names10.map (fun n => (n, msk64))

def ds10 : Dataset :=
  ⟨I10, M10, names10, names10, names10, [some [255, 0, 0]]⟩

/-- Witness for C7, the end-to-end scenario of the spec: 10 identically
sized 64 x 64 image/mask pairs, class list [animal], batch size 2: the
loader length is 5, batch 0 exists, its image batch has shape (2,64,64,3)
and its mask batch has shape (2,64,64,1). -/
theorem claim_C7_witness :
    dataloderLen (dataloderInit ds10 2 false (List.range 10)) = .ok 5
    ∧ ∃ imgs msks,
      dlGetBatch (dataloderInit ds10 2 false (List.range 10)) ((0 : Nat) : Int)
          = .ok [imgs, msks]
      ∧ shape4 imgs = (2, 64, 64, 3)
      ∧ shape4 msks = (2, 64, 64, 1)
      ∧ ∀ j : Nat, j < 2 →
          getItem ds10 ((0 * 2 + j : Nat) : Int)
            = .ok (imgs.getD j [], msks.getD j []) :=
  claim_C7 I10 M10 ["animal"] ds10 (fun _ => img64) (fun _ => msk64)
    64 64 2 false (List.range 10) 0 rfl (by decide) (by decide) (by decide)
    (by decide) (by decide) (by decide) (by decide) (List.Perm.refl _)

/-- Claim C8: mask decoding is a pure function (repeated calls agree) and is
channel-independent and order-preserving: channel 0 of decoding against
[c1, c2] equals channel 0 of decoding against [c1] alone. -/
theorem claim_C8 (m : Raster) (c c1 c2 : String)
    (hc : (classesGet c).isSome = true)
    (h1 : (classesGet c1).isSome = true)
    (h2 : (classesGet c2).isSome = true) :
    decodeByNames m [c] = decodeByNames m [c]
    ∧ ∃ t1 t2,
        decodeByNames m [c1] = .ok t1
        ∧ decodeByNames m [c1, c2] = .ok t2
        ∧ ∀ r cc : Nat,
            ((t2.getD r []).getD cc []).getD 0 0
              = ((t1.getD r []).getD cc []).getD 0 0 := by
  refine ⟨rfl, rawVal m ([c1].map classesGet),
    rawVal m ([c1, c2].map classesGet), ?_, ?_, ?_⟩
  · exact decode_some_eq_raw m _ (by simp)
  · exact decode_some_eq_raw m _ (by simp)
  · intro r cc
    exact rawVal_chan0 m (classesGet c1) (classesGet c2) r cc

/-- Witness for C8 on a 1 x 2 mask whose second pixel is the animal color:
decoding with [animal] and with [animal, maskingbackground] agree on
channel 0. -/
theorem claim_C8_witness :
    decodeByNames [[[0, 0, 255], [255, 0, 0]]] ["animal"]
        = decodeByNames [[[0, 0, 255], [255, 0, 0]]] ["animal"]
    ∧ ∃ t1 t2,
        decodeByNames [[[0, 0, 255], [255, 0, 0]]] ["animal"] = .ok t1
        ∧ decodeByNames [[[0, 0, 255], [255, 0, 0]]]
            ["animal", "maskingbackground"] = .ok t2
        ∧ ∀ r cc : Nat,
            ((t2.getD r []).getD cc []).getD 0 0
              = ((t1.getD r []).getD cc []).getD 0 0 :=
  claim_C8 [[[0, 0, 255], [255, 0, 0]]] "animal" "animal" "maskingbackground"
    (by decide) (by decide) (by decide)
